import Mathlib

/-
Formal model of the scatter-gather (SG) buffer-descriptor ring of the
XDmaChannel driver (src/bsp/linux_2_6/drivers/dma_v1_10_b/src/xdma_channel_sg.c),
with proofs about the put/commit/get/start/stop protocol.

Modelling conventions:
- Descriptor memory is a list of buffer-descriptor records, one per slot.
  The virtual and the physical address of a slot are both represented by its
  index in the region (the macros P_TO_V / V_TO_P are a fixed bijection
  between the two address spaces, with NULL modelled as Option.none where a
  pointer may be null).
- The buffer-descriptor accessors (xbuf_descriptor.h is not among the
  sources; the spec treats the descriptor as an opaque value type with named
  getters/setters) are modelled as record-field access, with the single-bit
  masks of the control/status/flags words represented as named Bool fields
  next to a `rest` field holding the remaining bits of the word.
- The MMIO registers of the channel (DMAS, DMAC, SWCR, BDA) are fields of
  the channel state holding the currently readable value; the BDA register
  holds the physical address of a slot or NULL.
-/

/-- Control word of a buffer descriptor.  `stop` is the scatter-gather
disable bit (`XDC_DMACR_SG_DISABLE_MASK`) which makes the hardware halt
after processing the descriptor; `lastInPacket` is the bit tested by
`XBufDescriptor_IsLastControl`; `rest` holds the remaining bits. -/
structure BDControl where
  stop : Bool
  lastInPacket : Bool
  rest : Nat
deriving DecidableEq

/-- Status word of a buffer descriptor.  `busy` is the
`XDC_DMASR_BUSY_MASK` bit (set by software at Put, cleared by hardware on
completion); `rest` holds the remaining bits. -/
structure BDStatus where
  busy : Bool
  rest : Nat
deriving DecidableEq

/-- Flags word of a buffer descriptor.  `locked` is the bit tested by
`XBufDescriptor_IsLocked`; `rest` holds the remaining bits. -/
structure BDFlags where
  locked : Bool
  rest : Nat
deriving DecidableEq

/-- An XBufDescriptor: the fields named by the XBD_*_OFFSET words of the
descriptor.  `NextPtr` is the physical address of the successor slot,
i.e. its index in the descriptor region. -/
structure XBufDescriptor where
  Control : BDControl
  Source : Nat
  Destination : Nat
  Length : Nat
  Status : BDStatus
  DeviceStatus : Nat
  Id : Nat
  Flags : BDFlags
  RqstedLength : Nat
  NextPtr : Nat
deriving DecidableEq

/-- Modelled from the spec: `XBufDescriptor_Initialize` is provided by the
buffer-descriptor component, which is not among the sources.  Spec section 4.3
says ring creation "initializes each BD (zero or driver-defined defaults)";
the zero initialization is used here.  This zero descriptor is also used as
the (never reached in-bounds) default of `List.getD` reads. -/
def bdZero : XBufDescriptor :=
  { Control := { stop := false, lastInPacket := false, rest := 0 }
    Source := 0
    Destination := 0
    Length := 0
    Status := { busy := false, rest := 0 }
    DeviceStatus := 0
    Id := 0
    Flags := { locked := false, rest := 0 }
    RqstedLength := 0
    NextPtr := 0 }

/-- The `CopyBufferDescriptor` macro (xdma_channel_sg.c lines 267-287): a
field-wise copy of control, source, destination, length, status, device
status, id, flags and requested length from `src` into `dst`.  The next
pointer of `dst` is not assigned by the macro. -/
def CopyBufferDescriptor (src dst : XBufDescriptor) : XBufDescriptor :=
  { dst with
      Control := src.Control
      Source := src.Source
      Destination := src.Destination
      Length := src.Length
      Status := src.Status
      DeviceStatus := src.DeviceStatus
      Id := src.Id
      Flags := src.Flags
      RqstedLength := src.RqstedLength }

/-- `XBufDescriptor_SetControl(bd, XBufDescriptor_GetControl(bd) &
~XDC_DMACR_SG_DISABLE_MASK)`: clear the stop bit of a descriptor's control
word, leaving the other control bits intact. -/
def clearStop (bd : XBufDescriptor) : XBufDescriptor :=
  { bd with Control := { bd.Control with stop := false } }

/-- The XST_* status codes returned by the scatter-gather functions. -/
inductive XStatus where
  | XST_SUCCESS
  | XST_DMA_SG_NO_LIST
  | XST_DMA_SG_LIST_EMPTY
  | XST_DMA_SG_LIST_FULL
  | XST_DMA_SG_LIST_EXISTS
  | XST_DMA_SG_BD_LOCKED
  | XST_DMA_SG_NOTHING_TO_COMMIT
  | XST_DMA_SG_IS_STARTED
  | XST_DMA_SG_IS_STOPPED
  | XST_DMA_SG_BD_NOT_COMMITTED
  | XST_DMA_SG_NO_DATA
deriving DecidableEq

open XStatus

/-- The scatter-gather state of an XDmaChannel: the ring fields of the
channel structure together with the channel's MMIO registers.  Pointers
into the descriptor region are slot indices; `CommitPtr` and `RegBDA` may
be NULL and are Options. -/
structure XDmaChannel where
  TotalDescriptorCount : Nat
  Descriptors : List XBufDescriptor
  PutPtr : Nat
  GetPtr : Nat
  CommitPtr : Option Nat
  LastPtr : Nat
  ActiveDescriptorCount : Nat
  ActivePacketCount : Nat
  Committed : Bool
  RegDMAS : Nat
  RegDMAC : Nat
  RegSWCR : Nat
  RegBDA : Option Nat
deriving DecidableEq

/-- Scatter gather enable bit of the software control register; the value
0x80000000 is defined in xdma_channel_sg.c line 255. -/
def XDC_SWCR_SG_ENABLE_MASK : Nat := 0x80000000

/-- Modelled from the spec: the DMA status register's SG-busy bit mask lives
in xdma_channel_i.h, which is not among the sources; it is a single bit,
fixed here. -/
def XDC_DMASR_SG_BUSY_MASK : Nat := 0x08000000

/-- Modelled from the spec: the DMA control register's SG-disable bit mask
lives in xdma_channel_i.h, which is not among the sources; it is a single
bit, fixed here. -/
def XDC_DMACR_SG_DISABLE_MASK : Nat := 0x04000000

/-- All 32 bits set; `x &&& (u32AllOnes ^^^ m)` models the C expression
`x & ~m` on u32 values. -/
def u32AllOnes : Nat := 0xFFFFFFFF

/-- Size in bytes of an XBufDescriptor: ten 32-bit words (the nine copied
fields plus the next pointer). -/
def sizeofXBufDescriptor : Nat := 40

/-- Number of iterations of the creation loop of `XDmaChannel_CreateSgList`
(lines 607-639): the loop runs while `UsedByteCount + sizeof(XBufDescriptor)
<= ByteCount`, adding `sizeof(XBufDescriptor)` to `UsedByteCount` each time;
here the recursion is on the remaining byte count. -/
def sgLoopIters (byteCount : Nat) : Nat :=
  if h : sizeofXBufDescriptor ≤ byteCount then
    sgLoopIters (byteCount - sizeofXBufDescriptor) + 1
  else 0
termination_by byteCount
decreasing_by
  simp only [sizeofXBufDescriptor] at h ⊢
  omega

/-- The descriptor-creating part of the loop of `XDmaChannel_CreateSgList`
(lines 607-639), after `k` iterations: each iteration initializes the new
descriptor (slot `k`) and, when a previous descriptor exists, sets the
previous descriptor's next pointer to the physical address of the new one
(its index). -/
def CreateSgLoop : Nat → List XBufDescriptor
  | 0 => []
  | k + 1 =>
      let descs := CreateSgLoop k
      (if k = 0 then descs
       else descs.set (k - 1) { descs.getD (k - 1) bdZero with NextPtr := k }) ++ [bdZero]

/-- `XDmaChannel_CreateSgList` (lines 572-660).  Carves descriptors out of
the supplied region, links them in order, closes the ring by linking the
last created descriptor back to the first (index 0), and resets the ring
cursors and counters.  The Put/Get/Last pointers are set to
`BufferDescriptorPtr`, which after the loop is the last created slot. -/
def XDmaChannel_CreateSgList (inst : XDmaChannel) (byteCount : Nat) :
    XStatus × XDmaChannel :=
  if inst.TotalDescriptorCount ≠ 0 then (XST_DMA_SG_LIST_EXISTS, inst)
  else
    let n := sgLoopIters byteCount
    let descs0 := CreateSgLoop n
    let descs := descs0.set (n - 1) { descs0.getD (n - 1) bdZero with NextPtr := 0 }
    (XST_SUCCESS,
      { inst with
          TotalDescriptorCount := n
          Descriptors := descs
          PutPtr := n - 1
          GetPtr := n - 1
          CommitPtr := none
          LastPtr := n - 1
          ActiveDescriptorCount := 0
          ActivePacketCount := 0
          Committed := false })

/-- `XDmaChannel_IsSgListEmpty` (lines 685-696). -/
def XDmaChannel_IsSgListEmpty (inst : XDmaChannel) : Bool :=
  inst.ActiveDescriptorCount = 0

/-- The mutation of the caller's source descriptor performed by a successful
`XDmaChannel_PutDescriptor` (lines 784-793): force the stop bit set in the
control word, set the status word to `XDC_DMASR_BUSY_MASK` (busy set, all
other status bits zero) and zero the device status. -/
def putSourceBd (bd : XBufDescriptor) : XBufDescriptor :=
  { bd with
      Control := { bd.Control with stop := true }
      Status := { busy := true, rest := 0 }
      DeviceStatus := 0 }

/-- Descriptor memory after the copy step of a successful put (line 800):
the prepared source descriptor is copied field-wise into the slot at
`PutPtr` (the slot's next pointer survives). -/
def putDescs1 (inst : XDmaChannel) (bd : XBufDescriptor) : List XBufDescriptor :=
  inst.Descriptors.set inst.PutPtr
    (CopyBufferDescriptor (putSourceBd bd) (inst.Descriptors.getD inst.PutPtr bdZero))

/-- Descriptor memory after the conditional stop-bit clear of a successful
put (lines 812-817): when `CommitPtr != LastPtr && CommitPtr != NULL`, the
stop bit of the descriptor at `LastPtr` is cleared. -/
def putDescs2 (inst : XDmaChannel) (bd : XBufDescriptor) : List XBufDescriptor :=
  if inst.CommitPtr ≠ some inst.LastPtr ∧ inst.CommitPtr ≠ none then
    (putDescs1 inst bd).set inst.LastPtr
      (clearStop ((putDescs1 inst bd).getD inst.LastPtr bdZero))
  else putDescs1 inst bd

/-- Channel state after a successful `XDmaChannel_PutDescriptor` (lines
780-839): copy into the slot at `PutPtr`; bump `ActivePacketCount` when the
slot now at `PutPtr` has its last-in-packet bit; conditionally clear the
previous tail's stop bit; increment `ActiveDescriptorCount`; capture the
staged run's head in `CommitPtr` when it was NULL; then advance `LastPtr`
to `PutPtr` and `PutPtr` to the successor read from the slot's next
pointer. -/
def putSuccessResult (inst : XDmaChannel) (bd : XBufDescriptor) : XDmaChannel :=
  { inst with
      Descriptors := putDescs2 inst bd
      ActivePacketCount :=
        if ((putDescs1 inst bd).getD inst.PutPtr bdZero).Control.lastInPacket then
          inst.ActivePacketCount + 1
        else inst.ActivePacketCount
      ActiveDescriptorCount := inst.ActiveDescriptorCount + 1
      CommitPtr := if inst.CommitPtr = none then some inst.LastPtr else inst.CommitPtr
      LastPtr := inst.PutPtr
      PutPtr := ((putDescs2 inst bd).getD inst.PutPtr bdZero).NextPtr }

/-- `XDmaChannel_PutDescriptor` (lines 745-840).  Returns the status, the
channel state after the call and the caller's source descriptor after the
call (the function writes the stop bit and the statuses into the source
descriptor before copying it into the ring). -/
def XDmaChannel_PutDescriptor (inst : XDmaChannel) (bd : XBufDescriptor) :
    XStatus × XDmaChannel × XBufDescriptor :=
  if inst.TotalDescriptorCount = 0 then (XST_DMA_SG_NO_LIST, inst, bd)
  else if inst.ActiveDescriptorCount = inst.TotalDescriptorCount then
    (XST_DMA_SG_LIST_FULL, inst, bd)
  else if (inst.Descriptors.getD inst.PutPtr bdZero).Flags.locked then
    (XST_DMA_SG_BD_LOCKED, inst, bd)
  else (XST_SUCCESS, putSuccessResult inst bd, putSourceBd bd)

/-- Channel state after a successful `XDmaChannel_CommitPuts` with
`CommitPtr = some c` (lines 887-907): when the descriptor to commit is not
the last in the list its stop bit is cleared; `Committed` is set and
`CommitPtr` is reset to NULL. -/
def commitDescs (inst : XDmaChannel) (c : Nat) : List XBufDescriptor :=
  if c ≠ inst.LastPtr then
    inst.Descriptors.set c (clearStop (inst.Descriptors.getD c bdZero))
  else inst.Descriptors

def commitSuccessResult (inst : XDmaChannel) (c : Nat) : XDmaChannel :=
  { inst with
      Descriptors := commitDescs inst c
      Committed := true
      CommitPtr := none }

/-- `XDmaChannel_CommitPuts` (lines 872-909). -/
def XDmaChannel_CommitPuts (inst : XDmaChannel) : XStatus × XDmaChannel :=
  match inst.CommitPtr with
  | none => (XST_DMA_SG_NOTHING_TO_COMMIT, inst)
  | some c =>
      if inst.ActiveDescriptorCount = 0 then (XST_DMA_SG_NOTHING_TO_COMMIT, inst)
      else (XST_SUCCESS, commitSuccessResult inst c)

/-- `XDmaChannel_GetDescriptor` (lines 955-990).  Returns the status, the
channel state after the call, and the returned pointer (the index of the
slot at `GetPtr`, or none when no pointer was written). -/
def XDmaChannel_GetDescriptor (inst : XDmaChannel) :
    XStatus × XDmaChannel × Option Nat :=
  if inst.TotalDescriptorCount = 0 then (XST_DMA_SG_NO_LIST, inst, none)
  else if inst.ActiveDescriptorCount = 0 then (XST_DMA_SG_LIST_EMPTY, inst, none)
  else
    (XST_SUCCESS,
      { inst with
          GetPtr := (inst.Descriptors.getD inst.GetPtr bdZero).NextPtr
          ActiveDescriptorCount := inst.ActiveDescriptorCount - 1 },
      some inst.GetPtr)

/-- The enable sequence at the end of `XDmaChannel_SgStart` (lines 420-433):
set the SG enable bit in the software control register first, then clear
the SG disable bit in the DMA control register. -/
def sgStartEnable (inst : XDmaChannel) : XStatus × XDmaChannel :=
  let inst1 := { inst with RegSWCR := inst.RegSWCR ||| XDC_SWCR_SG_ENABLE_MASK }
  (XST_SUCCESS,
    { inst1 with RegDMAC := inst1.RegDMAC &&& (u32AllOnes ^^^ XDC_DMACR_SG_DISABLE_MASK) })

/-- The non-null-BDA path of `XDmaChannel_SgStart` (lines 387-409): follow
the next pointer of the last descriptor the hardware processed; refuse with
NoData when the hardware has already consumed it (busy bit clear) and with
BdNotCommitted when it is the head of the uncommitted staged run. -/
def sgStartFromBda (inst : XDmaChannel) (lastIdx : Nat) : XStatus × XDmaChannel :=
  let nextIdx := (inst.Descriptors.getD lastIdx bdZero).NextPtr
  if (inst.Descriptors.getD nextIdx bdZero).Status.busy = false then
    (XST_DMA_SG_NO_DATA, inst)
  else if some nextIdx = inst.CommitPtr then (XST_DMA_SG_BD_NOT_COMMITTED, inst)
  else sgStartEnable inst

/-- `XDmaChannel_SgStart` (lines 340-434). -/
def XDmaChannel_SgStart (inst : XDmaChannel) : XStatus × XDmaChannel :=
  if inst.TotalDescriptorCount = 0 then (XST_DMA_SG_NO_LIST, inst)
  else if XDmaChannel_IsSgListEmpty inst then (XST_DMA_SG_LIST_EMPTY, inst)
  else if inst.RegDMAS &&& XDC_DMASR_SG_BUSY_MASK ≠ 0 then (XST_DMA_SG_IS_STARTED, inst)
  else
    match inst.RegBDA with
    | none => sgStartEnable { inst with RegBDA := some inst.GetPtr }
    | some lastIdx => sgStartFromBda inst lastIdx

/-- Result of `XDmaChannel_SgStop`: `stopped` is the XST_DMA_SG_IS_STOPPED
return (the out parameter is not written), `halted` is the XST_SUCCESS
return carrying the channel state and the value written through the out
parameter (the virtual translation of the BDA register), and `waiting`
means every DMAS value of the supplied read trace still had the SG busy
bit set, so the do-while poll of lines 514-519 is still spinning. -/
inductive SgStopResult where
  | stopped (inst : XDmaChannel)
  | halted (inst : XDmaChannel) (lastBd : Option Nat)
  | waiting
deriving DecidableEq

/-- The do-while poll of `XDmaChannel_SgStop` (lines 514-519): consume DMAS
reads while the SG busy bit is set; on the first read with the bit clear,
fall through to reading the BDA register. -/
def sgStopWait (inst : XDmaChannel) : List Nat → SgStopResult
  | [] => SgStopResult.waiting
  | r :: rs =>
      if r &&& XDC_DMASR_SG_BUSY_MASK ≠ 0 then sgStopWait inst rs
      else SgStopResult.halted inst inst.RegBDA

/-- `XDmaChannel_SgStop` (lines 483-529).  The DMAS register is owned by
the hardware and changes while the function polls it, so the successive
values it reads are supplied as `dmasReads`. -/
def XDmaChannel_SgStop (inst : XDmaChannel) (dmasReads : List Nat) : SgStopResult :=
  if inst.RegSWCR &&& XDC_SWCR_SG_ENABLE_MASK = 0 then SgStopResult.stopped inst
  else
    sgStopWait
      { inst with RegSWCR := inst.RegSWCR &&& (u32AllOnes ^^^ XDC_SWCR_SG_ENABLE_MASK) }
      dmasReads

/-- A software operation on the ring: one call of put (with the caller's
source descriptor), commit, or get. -/
inductive SgOp where
  | put (bd : XBufDescriptor)
  | commit
  | get
deriving DecidableEq

/-- The channel state after one ring operation (the returned status and
out values are dropped; a failed call leaves the state unchanged). -/
def applyOp (s : XDmaChannel) : SgOp → XDmaChannel
  | SgOp.put bd => (XDmaChannel_PutDescriptor s bd).2.1
  | SgOp.commit => (XDmaChannel_CommitPuts s).2
  | SgOp.get => (XDmaChannel_GetDescriptor s).2.1

/-- The channel state after a sequence of ring operations. -/
def runOps (s : XDmaChannel) : List SgOp → XDmaChannel
  | [] => s
  | op :: ops => runOps (applyOp s op) ops

/-- A channel on which no scatter-gather list has been created yet and
whose registers read zero. -/
def blankChannel : XDmaChannel :=
  { TotalDescriptorCount := 0
    Descriptors := []
    PutPtr := 0
    GetPtr := 0
    CommitPtr := none
    LastPtr := 0
    ActiveDescriptorCount := 0
    ActivePacketCount := 0
    Committed := false
    RegDMAS := 0
    RegDMAC := 0
    RegSWCR := 0
    RegBDA := none }

/-- The stop bit of the descriptor at slot `i` of channel `s`. -/
def stopAt (s : XDmaChannel) (i : Nat) : Bool :=
  (s.Descriptors.getD i bdZero).Control.stop

/- List access helper lemmas. -/

theorem getD_set_self {α : Type} (l : List α) (i : Nat) (a d : α) (h : i < l.length) :
    (l.set i a).getD i d = a := by
  rw [List.getD_eq_getElem _ _ (by simpa using h)]
  simp [List.getElem_set]

theorem getD_set_ne {α : Type} (l : List α) (i j : Nat) (a d : α) (h : i ≠ j) :
    (l.set i a).getD j d = l.getD j d := by
  rcases Nat.lt_or_ge j l.length with hj | hj
  · rw [List.getD_eq_getElem _ _ (by simpa using hj), List.getD_eq_getElem _ _ hj]
    simp [List.getElem_set, h]
  · rw [List.getD_eq_default _ _ (by simpa using hj), List.getD_eq_default _ _ hj]

/-- A write that does not change the next pointer of its own slot changes no
slot's next pointer. -/
theorem getD_set_next (l : List XBufDescriptor) (i j : Nat) (a : XBufDescriptor)
    (h : a.NextPtr = (l.getD i bdZero).NextPtr) :
    ((l.set i a).getD j bdZero).NextPtr = (l.getD j bdZero).NextPtr := by
  rcases eq_or_ne i j with rfl | hne
  · rcases Nat.lt_or_ge i l.length with hi | hi
    · rw [getD_set_self _ _ _ _ hi, h]
    · rw [List.set_eq_of_length_le hi]
  · rw [getD_set_ne _ _ _ _ _ hne]

/- Characterization of the creation loop. -/

theorem createSgLoop_length (k : Nat) : (CreateSgLoop k).length = k := by
  induction k with
  | zero => rfl
  | succ k ih =>
    simp only [CreateSgLoop, List.length_append, List.length_singleton]
    split <;> simp [List.length_set, ih]

theorem createSgLoop_getD (k j : Nat) (hj : j < k) :
    (CreateSgLoop k).getD j bdZero =
      if j + 1 < k then { bdZero with NextPtr := j + 1 } else bdZero := by
  induction k generalizing j with
  | zero => omega
  | succ k ih =>
    simp only [CreateSgLoop]
    rcases Nat.lt_or_ge j k with hjk | hjk
    · rw [List.getD_append]
      · split
        next hk0 => omega
        next hk0 =>
          rcases eq_or_ne j (k - 1) with rfl | hne
          · rw [getD_set_self _ _ _ _ (by rw [createSgLoop_length]; omega)]
            rw [ih (k - 1) (by omega)]
            rw [if_neg (by omega), if_pos (by omega)]
            have : k - 1 + 1 = k := by omega
            rw [this]
          · rw [getD_set_ne _ _ _ _ _ (Ne.symm hne)]
            rw [ih j hjk, if_pos (by omega), if_pos (by omega)]
      · split <;> simp [List.length_set, createSgLoop_length] <;> omega
    · have hjeq : j = k := by omega
      rw [hjeq]
      have hlen : (if k = 0 then CreateSgLoop k
          else (CreateSgLoop k).set (k - 1)
            { (CreateSgLoop k).getD (k - 1) bdZero with NextPtr := k }).length = k := by
        split <;> simp [List.length_set, createSgLoop_length]
      rw [List.getD_append_right _ _ _ _ hlen.le, hlen, Nat.sub_self]
      simp

theorem sgLoopIters_eq_div (b : Nat) : sgLoopIters b = b / sizeofXBufDescriptor := by
  induction b using Nat.strong_induction_on with
  | _ b ih =>
    rw [sgLoopIters]
    split
    next h =>
      rw [ih (b - sizeofXBufDescriptor) (by simp only [sizeofXBufDescriptor] at h ⊢; omega)]
      simp only [sizeofXBufDescriptor] at h ⊢
      omega
    next h =>
      simp only [sizeofXBufDescriptor] at h ⊢
      omega

theorem sgLoopIters_pos (b : Nat) (h : sizeofXBufDescriptor ≤ b) : 0 < sgLoopIters b := by
  rw [sgLoopIters, dif_pos h]
  omega

/-- The successful branch of `XDmaChannel_CreateSgList`, as an equation. -/
theorem createSgList_eq (inst : XDmaChannel) (byteCount : Nat)
    (h0 : inst.TotalDescriptorCount = 0) :
    XDmaChannel_CreateSgList inst byteCount =
      (XST_SUCCESS,
        { inst with
            TotalDescriptorCount := sgLoopIters byteCount
            Descriptors :=
              (CreateSgLoop (sgLoopIters byteCount)).set (sgLoopIters byteCount - 1)
                { (CreateSgLoop (sgLoopIters byteCount)).getD (sgLoopIters byteCount - 1)
                    bdZero with
                  NextPtr := 0 }
            PutPtr := sgLoopIters byteCount - 1
            GetPtr := sgLoopIters byteCount - 1
            CommitPtr := none
            LastPtr := sgLoopIters byteCount - 1
            ActiveDescriptorCount := 0
            ActivePacketCount := 0
            Committed := false }) := by
  rw [XDmaChannel_CreateSgList, if_neg (by simp [h0])]

/-- Shape of a channel state brought about by a successful list creation on
which no put has succeeded yet. -/
structure InitShape (s : XDmaChannel) : Prop where
  total_pos : 0 < s.TotalDescriptorCount
  len_eq : s.Descriptors.length = s.TotalDescriptorCount
  put_eq : s.PutPtr = s.TotalDescriptorCount - 1
  get_eq : s.GetPtr = s.TotalDescriptorCount - 1
  last_eq : s.LastPtr = s.TotalDescriptorCount - 1
  commit_none : s.CommitPtr = none
  active_zero : s.ActiveDescriptorCount = 0
  nexts : ∀ i, i < s.TotalDescriptorCount →
    (s.Descriptors.getD i bdZero).NextPtr = (i + 1) % s.TotalDescriptorCount

theorem createSgList_initShape (inst : XDmaChannel) (byteCount : Nat)
    (h0 : inst.TotalDescriptorCount = 0) (hbc : sizeofXBufDescriptor ≤ byteCount) :
    InitShape (XDmaChannel_CreateSgList inst byteCount).2 := by
  rw [createSgList_eq inst byteCount h0]
  have hn : 0 < sgLoopIters byteCount := sgLoopIters_pos byteCount hbc
  refine ⟨hn, ?_, rfl, rfl, rfl, rfl, rfl, ?_⟩
  · simp [List.length_set, createSgLoop_length]
  · intro i hi
    simp only at hi ⊢
    rcases eq_or_ne i (sgLoopIters byteCount - 1) with rfl | hne
    · rw [getD_set_self _ _ _ _ (by rw [createSgLoop_length]; omega)]
      have : sgLoopIters byteCount - 1 + 1 = sgLoopIters byteCount := by omega
      rw [this, Nat.mod_self]
    · rw [getD_set_ne _ _ _ _ _ (Ne.symm hne)]
      rw [createSgLoop_getD _ _ hi, if_pos (by omega)]
      rw [Nat.mod_eq_of_lt (by omega)]

/- Equations for the branches of the ring operations. -/

theorem put_eq_success (inst : XDmaChannel) (bd : XBufDescriptor)
    (h1 : inst.TotalDescriptorCount ≠ 0)
    (h2 : inst.ActiveDescriptorCount ≠ inst.TotalDescriptorCount)
    (h3 : (inst.Descriptors.getD inst.PutPtr bdZero).Flags.locked = false) :
    XDmaChannel_PutDescriptor inst bd =
      (XST_SUCCESS, putSuccessResult inst bd, putSourceBd bd) := by
  rw [XDmaChannel_PutDescriptor, if_neg h1, if_neg h2,
    if_neg (by simp only [h3]; exact Bool.false_ne_true)]

theorem commit_eq_none (s : XDmaChannel) (h : s.CommitPtr = none) :
    XDmaChannel_CommitPuts s = (XST_DMA_SG_NOTHING_TO_COMMIT, s) := by
  rw [XDmaChannel_CommitPuts, h]

theorem commit_eq_empty (s : XDmaChannel) (c : Nat) (hc : s.CommitPtr = some c)
    (ha : s.ActiveDescriptorCount = 0) :
    XDmaChannel_CommitPuts s = (XST_DMA_SG_NOTHING_TO_COMMIT, s) := by
  simp only [XDmaChannel_CommitPuts, hc]
  rw [if_pos ha]

theorem commit_eq_success (s : XDmaChannel) (c : Nat) (hc : s.CommitPtr = some c)
    (ha : s.ActiveDescriptorCount ≠ 0) :
    XDmaChannel_CommitPuts s = (XST_SUCCESS, commitSuccessResult s c) := by
  simp only [XDmaChannel_CommitPuts, hc]
  rw [if_neg ha]

theorem get_eq_success (s : XDmaChannel) (h1 : s.TotalDescriptorCount ≠ 0)
    (h2 : s.ActiveDescriptorCount ≠ 0) :
    XDmaChannel_GetDescriptor s =
      (XST_SUCCESS,
        { s with
            GetPtr := (s.Descriptors.getD s.GetPtr bdZero).NextPtr
            ActiveDescriptorCount := s.ActiveDescriptorCount - 1 },
        some s.GetPtr) := by
  rw [XDmaChannel_GetDescriptor, if_neg h1, if_neg h2]

/- Facts about the descriptor memory written by a successful put. -/

theorem putDescs1_length (inst : XDmaChannel) (bd : XBufDescriptor) :
    (putDescs1 inst bd).length = inst.Descriptors.length := by
  simp [putDescs1]

theorem putDescs2_length (inst : XDmaChannel) (bd : XBufDescriptor) :
    (putDescs2 inst bd).length = inst.Descriptors.length := by
  rw [putDescs2]
  split <;> simp [putDescs1]

theorem putDescs1_next (inst : XDmaChannel) (bd : XBufDescriptor) (i : Nat) :
    ((putDescs1 inst bd).getD i bdZero).NextPtr =
      (inst.Descriptors.getD i bdZero).NextPtr :=
  getD_set_next _ _ _ _ rfl

theorem putDescs2_next (inst : XDmaChannel) (bd : XBufDescriptor) (i : Nat) :
    ((putDescs2 inst bd).getD i bdZero).NextPtr =
      (inst.Descriptors.getD i bdZero).NextPtr := by
  rw [putDescs2]
  split
  · exact Eq.trans (getD_set_next _ _ _ _ rfl) (putDescs1_next inst bd i)
  · exact putDescs1_next inst bd i

theorem putDescs1_getD_putPtr (inst : XDmaChannel) (bd : XBufDescriptor)
    (h : inst.PutPtr < inst.Descriptors.length) :
    (putDescs1 inst bd).getD inst.PutPtr bdZero =
      CopyBufferDescriptor (putSourceBd bd) (inst.Descriptors.getD inst.PutPtr bdZero) :=
  getD_set_self _ _ _ _ h

theorem putDescs1_getD_ne (inst : XDmaChannel) (bd : XBufDescriptor) (i : Nat)
    (h : i ≠ inst.PutPtr) :
    (putDescs1 inst bd).getD i bdZero = inst.Descriptors.getD i bdZero :=
  getD_set_ne _ _ _ _ _ (Ne.symm h)

/- The stop-bit invariant maintained by the protocol. -/

/-- Invariant satisfied by every reachable channel state on which at least
one put has succeeded: the ring is well-formed (pointers in range, next
pointers threading the slots of the region in a cycle, the put pointer one
slot past the last pointer) and the stop bit is set on the slot at
`LastPtr` and, when a run is staged, on the slot at `CommitPtr`. -/
structure SgInv (s : XDmaChannel) : Prop where
  total_pos : 0 < s.TotalDescriptorCount
  len_eq : s.Descriptors.length = s.TotalDescriptorCount
  put_lt : s.PutPtr < s.TotalDescriptorCount
  get_lt : s.GetPtr < s.TotalDescriptorCount
  last_lt : s.LastPtr < s.TotalDescriptorCount
  commit_lt : ∀ c, s.CommitPtr = some c → c < s.TotalDescriptorCount
  nexts : ∀ i, i < s.TotalDescriptorCount →
    (s.Descriptors.getD i bdZero).NextPtr = (i + 1) % s.TotalDescriptorCount
  put_next : s.PutPtr = (s.LastPtr + 1) % s.TotalDescriptorCount
  stop_last : stopAt s s.LastPtr = true
  stop_commit : ∀ c, s.CommitPtr = some c → stopAt s c = true

/-- When the stop-bit clear of a put fires, the slot it clears is not the
slot the put has just written. -/
theorem put_fire_ne (s : XDmaChannel) (h : SgInv s)
    (hfire : s.CommitPtr ≠ some s.LastPtr ∧ s.CommitPtr ≠ none) :
    s.LastPtr ≠ s.PutPtr := by
  obtain ⟨c, hc⟩ : ∃ c, s.CommitPtr = some c := by
    cases hcp : s.CommitPtr with
    | none => exact absurd hcp hfire.2
    | some c => exact ⟨c, rfl⟩
  have hcl : c ≠ s.LastPtr := by
    intro hcl
    exact hfire.1 (by rw [hc, hcl])
  have hcN := h.commit_lt c hc
  have hlN := h.last_lt
  have hpn := h.put_next
  intro heq
  rw [← heq] at hpn
  rcases Nat.lt_or_ge (s.LastPtr + 1) s.TotalDescriptorCount with hlt | hge
  · rw [Nat.mod_eq_of_lt hlt] at hpn
    omega
  · have hN : s.LastPtr + 1 = s.TotalDescriptorCount := by omega
    rw [hN, Nat.mod_self] at hpn
    omega

theorem putDescs2_stop_putPtr (s : XDmaChannel) (bd : XBufDescriptor) (h : SgInv s) :
    ((putDescs2 s bd).getD s.PutPtr bdZero).Control.stop = true := by
  have hplen : s.PutPtr < s.Descriptors.length := by
    rw [h.len_eq]
    exact h.put_lt
  rw [putDescs2]
  split
  next hfire =>
    rw [getD_set_ne _ _ _ _ _ (put_fire_ne s h hfire),
      putDescs1_getD_putPtr s bd hplen]
    rfl
  next =>
    rw [putDescs1_getD_putPtr s bd hplen]
    rfl

/-- A successful or failed put preserves the stop-bit invariant. -/
theorem sgInv_put (s : XDmaChannel) (bd : XBufDescriptor) (h : SgInv s) :
    SgInv (XDmaChannel_PutDescriptor s bd).2.1 := by
  by_cases h1 : s.TotalDescriptorCount = 0
  · rw [XDmaChannel_PutDescriptor, if_pos h1]
    exact h
  by_cases h2 : s.ActiveDescriptorCount = s.TotalDescriptorCount
  · rw [XDmaChannel_PutDescriptor, if_neg h1, if_pos h2]
    exact h
  by_cases h3 : (s.Descriptors.getD s.PutPtr bdZero).Flags.locked = true
  · rw [XDmaChannel_PutDescriptor, if_neg h1, if_neg h2, if_pos h3]
    exact h
  rw [put_eq_success s bd h1 h2 (by simpa using h3)]
  have hplen : s.PutPtr < s.Descriptors.length := by
    rw [h.len_eq]
    exact h.put_lt
  refine ⟨h.total_pos, ?_, ?_, h.get_lt, h.put_lt, ?_, ?_, ?_, ?_, ?_⟩
  · show (putDescs2 s bd).length = s.TotalDescriptorCount
    rw [putDescs2_length, h.len_eq]
  · show ((putDescs2 s bd).getD s.PutPtr bdZero).NextPtr < s.TotalDescriptorCount
    rw [putDescs2_next, h.nexts _ h.put_lt]
    exact Nat.mod_lt _ h.total_pos
  · intro c hc
    have hc' : (if s.CommitPtr = none then some s.LastPtr else s.CommitPtr) = some c := hc
    by_cases hnone : s.CommitPtr = none
    · rw [if_pos hnone] at hc'
      obtain rfl := Option.some.inj hc'
      exact h.last_lt
    · rw [if_neg hnone] at hc'
      exact h.commit_lt c hc'
  · intro i hi
    show ((putDescs2 s bd).getD i bdZero).NextPtr = (i + 1) % s.TotalDescriptorCount
    rw [putDescs2_next]
    exact h.nexts i hi
  · show ((putDescs2 s bd).getD s.PutPtr bdZero).NextPtr =
      (s.PutPtr + 1) % s.TotalDescriptorCount
    rw [putDescs2_next]
    exact h.nexts _ h.put_lt
  · exact putDescs2_stop_putPtr s bd h
  · intro c hc
    have hc' : (if s.CommitPtr = none then some s.LastPtr else s.CommitPtr) = some c := hc
    show ((putDescs2 s bd).getD c bdZero).Control.stop = true
    by_cases hnone : s.CommitPtr = none
    · rw [if_pos hnone] at hc'
      obtain rfl := Option.some.inj hc'
      rw [putDescs2, if_neg (by simp [hnone])]
      rcases eq_or_ne s.LastPtr s.PutPtr with heq | hne
      · rw [heq, putDescs1_getD_putPtr s bd hplen]
        rfl
      · rw [putDescs1_getD_ne s bd _ hne]
        exact h.stop_last
    · rw [if_neg hnone] at hc'
      rw [putDescs2]
      split
      next hfire =>
        have hcl : c ≠ s.LastPtr := by
          intro hcl
          exact hfire.1 (by rw [hc', hcl])
        rw [getD_set_ne _ _ _ _ _ (Ne.symm hcl)]
        rcases eq_or_ne c s.PutPtr with rfl | hne
        · rw [putDescs1_getD_putPtr s bd hplen]
          rfl
        · rw [putDescs1_getD_ne s bd _ hne]
          exact h.stop_commit c hc'
      next hnfire =>
        have hcpl : s.CommitPtr = some s.LastPtr := by
          by_contra hne
          exact hnfire ⟨hne, by rw [hc']; simp⟩
        have hcl : c = s.LastPtr := by
          rw [hcpl] at hc'
          exact (Option.some.inj hc').symm
        rcases eq_or_ne c s.PutPtr with rfl | hne
        · rw [putDescs1_getD_putPtr s bd hplen]
          rfl
        · rw [putDescs1_getD_ne s bd _ hne, hcl]
          exact h.stop_last

/-- Commit preserves the stop-bit invariant. -/
theorem sgInv_commit (s : XDmaChannel) (h : SgInv s) :
    SgInv (XDmaChannel_CommitPuts s).2 := by
  cases hcp : s.CommitPtr with
  | none =>
    rw [commit_eq_none s hcp]
    exact h
  | some c =>
    by_cases ha : s.ActiveDescriptorCount = 0
    · rw [commit_eq_empty s c hcp ha]
      exact h
    · rw [commit_eq_success s c hcp ha]
      refine ⟨h.total_pos, ?_, h.put_lt, h.get_lt, h.last_lt, ?_, ?_, h.put_next, ?_, ?_⟩
      · show (commitDescs s c).length = s.TotalDescriptorCount
        rw [commitDescs]
        split <;> simp [h.len_eq]
      · intro c' hc'
        exact absurd (show (none : Option Nat) = some c' from hc') (by simp)
      · intro i hi
        show ((commitDescs s c).getD i bdZero).NextPtr = (i + 1) % s.TotalDescriptorCount
        rw [commitDescs]
        split
        · exact Eq.trans (getD_set_next _ _ _ _ rfl) (h.nexts i hi)
        · exact h.nexts i hi
      · show ((commitDescs s c).getD s.LastPtr bdZero).Control.stop = true
        rw [commitDescs]
        split
        next hcl =>
          rw [getD_set_ne _ _ _ _ _ hcl]
          exact h.stop_last
        next =>
          exact h.stop_last
      · intro c' hc'
        exact absurd (show (none : Option Nat) = some c' from hc') (by simp)

/-- Get preserves the stop-bit invariant. -/
theorem sgInv_get (s : XDmaChannel) (h : SgInv s) :
    SgInv (XDmaChannel_GetDescriptor s).2.1 := by
  by_cases h1 : s.TotalDescriptorCount = 0
  · rw [XDmaChannel_GetDescriptor, if_pos h1]
    exact h
  by_cases h2 : s.ActiveDescriptorCount = 0
  · rw [XDmaChannel_GetDescriptor, if_neg h1, if_pos h2]
    exact h
  rw [get_eq_success s h1 h2]
  refine ⟨h.total_pos, h.len_eq, h.put_lt, ?_, h.last_lt, h.commit_lt, h.nexts,
    h.put_next, h.stop_last, h.stop_commit⟩
  show (s.Descriptors.getD s.GetPtr bdZero).NextPtr < s.TotalDescriptorCount
  rw [h.nexts _ h.get_lt]
  exact Nat.mod_lt _ h.total_pos

/- Putting into a freshly created list establishes the invariant. -/

theorem initShape_put (s : XDmaChannel) (bd : XBufDescriptor) (hs : InitShape s) :
    (XDmaChannel_PutDescriptor s bd).2.1 = s ∨
      SgInv (XDmaChannel_PutDescriptor s bd).2.1 := by
  by_cases h1 : s.TotalDescriptorCount = 0
  · left
    rw [XDmaChannel_PutDescriptor, if_pos h1]
  by_cases h2 : s.ActiveDescriptorCount = s.TotalDescriptorCount
  · left
    rw [XDmaChannel_PutDescriptor, if_neg h1, if_pos h2]
  by_cases h3 : (s.Descriptors.getD s.PutPtr bdZero).Flags.locked = true
  · left
    rw [XDmaChannel_PutDescriptor, if_neg h1, if_neg h2, if_pos h3]
  right
  rw [put_eq_success s bd h1 h2 (by simpa using h3)]
  have hpN : s.PutPtr < s.TotalDescriptorCount := by
    rw [hs.put_eq]
    have := hs.total_pos
    omega
  have hplen : s.PutPtr < s.Descriptors.length := by
    rw [hs.len_eq]
    exact hpN
  have hd2 : putDescs2 s bd = putDescs1 s bd := by
    rw [putDescs2, if_neg (by simp [hs.commit_none])]
  refine ⟨hs.total_pos, ?_, ?_, ?_, hpN, ?_, ?_, ?_, ?_, ?_⟩
  · show (putDescs2 s bd).length = s.TotalDescriptorCount
    rw [putDescs2_length, hs.len_eq]
  · show ((putDescs2 s bd).getD s.PutPtr bdZero).NextPtr < s.TotalDescriptorCount
    rw [putDescs2_next, hs.nexts _ hpN]
    exact Nat.mod_lt _ hs.total_pos
  · show s.GetPtr < s.TotalDescriptorCount
    rw [hs.get_eq]
    have := hs.total_pos
    omega
  · intro c hc
    have hc' : (if s.CommitPtr = none then some s.LastPtr else s.CommitPtr) = some c := hc
    rw [if_pos hs.commit_none] at hc'
    obtain rfl := Option.some.inj hc'
    show s.LastPtr < s.TotalDescriptorCount
    rw [hs.last_eq]
    have := hs.total_pos
    omega
  · intro i hi
    show ((putDescs2 s bd).getD i bdZero).NextPtr = (i + 1) % s.TotalDescriptorCount
    rw [putDescs2_next]
    exact hs.nexts i hi
  · show ((putDescs2 s bd).getD s.PutPtr bdZero).NextPtr =
      (s.PutPtr + 1) % s.TotalDescriptorCount
    rw [putDescs2_next]
    exact hs.nexts _ hpN
  · show ((putDescs2 s bd).getD s.PutPtr bdZero).Control.stop = true
    rw [hd2, putDescs1_getD_putPtr s bd hplen]
    rfl
  · intro c hc
    have hc' : (if s.CommitPtr = none then some s.LastPtr else s.CommitPtr) = some c := hc
    rw [if_pos hs.commit_none] at hc'
    obtain rfl := Option.some.inj hc'
    show ((putDescs2 s bd).getD s.LastPtr bdZero).Control.stop = true
    have hlp : s.LastPtr = s.PutPtr := by
      rw [hs.last_eq, hs.put_eq]
    rw [hd2, hlp, putDescs1_getD_putPtr s bd hplen]
    rfl

theorem initShape_commit (s : XDmaChannel) (hs : InitShape s) :
    (XDmaChannel_CommitPuts s).2 = s := by
  rw [commit_eq_none s hs.commit_none]

theorem initShape_get (s : XDmaChannel) (hs : InitShape s) :
    (XDmaChannel_GetDescriptor s).2.1 = s := by
  by_cases h1 : s.TotalDescriptorCount = 0
  · rw [XDmaChannel_GetDescriptor, if_pos h1]
  · rw [XDmaChannel_GetDescriptor, if_neg h1, if_pos hs.active_zero]

/-- Every state reachable by ring operations from a successful creation is
either the created state itself or satisfies the stop-bit invariant. -/
theorem reach_init_or_inv (byteCount : Nat) (hbc : sizeofXBufDescriptor ≤ byteCount)
    (ops : List SgOp) :
    runOps (XDmaChannel_CreateSgList blankChannel byteCount).2 ops =
        (XDmaChannel_CreateSgList blankChannel byteCount).2 ∨
      SgInv (runOps (XDmaChannel_CreateSgList blankChannel byteCount).2 ops) := by
  have hshape : InitShape (XDmaChannel_CreateSgList blankChannel byteCount).2 :=
    createSgList_initShape blankChannel byteCount rfl hbc
  suffices H : ∀ (ops : List SgOp) (s : XDmaChannel),
      (s = (XDmaChannel_CreateSgList blankChannel byteCount).2 ∨ SgInv s) →
      (runOps s ops = (XDmaChannel_CreateSgList blankChannel byteCount).2 ∨
        SgInv (runOps s ops)) by
    exact H ops _ (Or.inl rfl)
  intro ops
  induction ops with
  | nil =>
    intro s hs
    exact hs
  | cons op ops ih =>
    intro s hs
    show runOps (applyOp s op) ops = _ ∨ SgInv (runOps (applyOp s op) ops)
    apply ih
    rcases hs with rfl | hinv
    · cases op with
      | put bd =>
        rcases initShape_put _ bd hshape with heq | hinv'
        · exact Or.inl heq
        · exact Or.inr hinv'
      | commit =>
        exact Or.inl (initShape_commit _ hshape)
      | get =>
        exact Or.inl (initShape_get _ hshape)
    · right
      cases op with
      | put bd => exact sgInv_put s bd hinv
      | commit => exact sgInv_commit s hinv
      | get => exact sgInv_get s hinv

/-- C1 (amended): in every state reachable from a successful create_list by
any sequence of put_descriptor, commit_puts and get_descriptor calls,
whenever CommitPtr is not none the BD at CommitPtr has its control stop bit
set; and the BD at LastPtr has its control stop bit set in every such state
except the freshly created state itself, whose descriptors are still
zero-initialized. -/
theorem c1_stop_bit_protocol (byteCount : Nat)
    (hbc : sizeofXBufDescriptor ≤ byteCount) (ops : List SgOp) :
    (∀ c,
        (runOps (XDmaChannel_CreateSgList blankChannel byteCount).2 ops).CommitPtr =
            some c →
          stopAt (runOps (XDmaChannel_CreateSgList blankChannel byteCount).2 ops) c =
            true) ∧
      (runOps (XDmaChannel_CreateSgList blankChannel byteCount).2 ops =
          (XDmaChannel_CreateSgList blankChannel byteCount).2 ∨
        stopAt (runOps (XDmaChannel_CreateSgList blankChannel byteCount).2 ops)
            (runOps (XDmaChannel_CreateSgList blankChannel byteCount).2 ops).LastPtr =
          true) := by
  rcases reach_init_or_inv byteCount hbc ops with heq | hinv
  · refine ⟨?_, Or.inl heq⟩
    intro c hc
    rw [heq] at hc
    rw [(createSgList_initShape blankChannel byteCount rfl hbc).commit_none] at hc
    exact absurd hc (by simp)
  · exact ⟨hinv.stop_commit, Or.inr hinv.stop_last⟩

/-- C1 witness: a 160-byte region (four descriptors) followed by one put
and one commit. -/
theorem c1_stop_bit_protocol_witness :
    (∀ c,
        (runOps (XDmaChannel_CreateSgList blankChannel 160).2
              [SgOp.put bdZero, SgOp.commit]).CommitPtr = some c →
          stopAt
              (runOps (XDmaChannel_CreateSgList blankChannel 160).2
                [SgOp.put bdZero, SgOp.commit]) c = true) ∧
      (runOps (XDmaChannel_CreateSgList blankChannel 160).2
            [SgOp.put bdZero, SgOp.commit] =
          (XDmaChannel_CreateSgList blankChannel 160).2 ∨
        stopAt
            (runOps (XDmaChannel_CreateSgList blankChannel 160).2
              [SgOp.put bdZero, SgOp.commit])
            (runOps (XDmaChannel_CreateSgList blankChannel 160).2
              [SgOp.put bdZero, SgOp.commit]).LastPtr = true) :=
  c1_stop_bit_protocol 160 (by decide) [SgOp.put bdZero, SgOp.commit]

/-- C1 counterexample: after create_list on an 80-byte region (a ring of
two zero-initialized descriptors) and the empty sequence of calls — a state
the claim quantifies over — the BD at LastPtr has its stop bit clear. -/
theorem c1_initial_state_stop_clear :
    stopAt (runOps (XDmaChannel_CreateSgList blankChannel 80).2 [])
        (runOps (XDmaChannel_CreateSgList blankChannel 80).2 []).LastPtr = false := by
  show stopAt (XDmaChannel_CreateSgList blankChannel 80).2
      (XDmaChannel_CreateSgList blankChannel 80).2.LastPtr = false
  have h2 : sgLoopIters 80 = 2 := by
    rw [sgLoopIters_eq_div]
    decide
  rw [createSgList_eq blankChannel 80 rfl, h2]
  decide

/-- C2: commit_puts returns NothingToCommit leaving all state unchanged iff
CommitPtr is none or the ring is empty; otherwise it clears the stop bit on
the BD at CommitPtr exactly when CommitPtr differs from LastPtr (a
singleton run's descriptors are untouched), and in every success case it
sets Committed and resets CommitPtr to none. -/
theorem c2_commitPuts_spec (s : XDmaChannel) :
    (XDmaChannel_CommitPuts s = (XST_DMA_SG_NOTHING_TO_COMMIT, s) ↔
        s.CommitPtr = none ∨ s.ActiveDescriptorCount = 0) ∧
      ∀ c, s.CommitPtr = some c → s.ActiveDescriptorCount ≠ 0 →
        (XDmaChannel_CommitPuts s).1 = XST_SUCCESS ∧
          (XDmaChannel_CommitPuts s).2.Committed = true ∧
          (XDmaChannel_CommitPuts s).2.CommitPtr = none ∧
          (c ≠ s.LastPtr → c < s.Descriptors.length →
            stopAt (XDmaChannel_CommitPuts s).2 c = false) ∧
          (c = s.LastPtr →
            (XDmaChannel_CommitPuts s).2.Descriptors = s.Descriptors) := by
  constructor
  · constructor
    · intro h
      by_contra hcond
      push_neg at hcond
      obtain ⟨hc_ne, ha⟩ := hcond
      cases hcp : s.CommitPtr with
      | none => exact hc_ne hcp
      | some c =>
        rw [commit_eq_success s c hcp ha] at h
        have hfst := congrArg Prod.fst h
        simp at hfst
    · intro hcond
      rcases hcond with hnone | ha
      · exact commit_eq_none s hnone
      · cases hcp : s.CommitPtr with
        | none => exact commit_eq_none s hcp
        | some c => exact commit_eq_empty s c hcp ha
  · intro c hc ha
    rw [commit_eq_success s c hc ha]
    refine ⟨rfl, rfl, rfl, ?_, ?_⟩
    · intro hne hlt
      show ((commitDescs s c).getD c bdZero).Control.stop = false
      rw [commitDescs, if_pos hne, getD_set_self _ _ _ _ hlt]
      rfl
    · intro heq
      show commitDescs s c = s.Descriptors
      rw [commitDescs, if_neg (fun hn => hn heq)]

/-- Concrete channel for the C2 witness: two-slot ring holding a staged run
of two descriptors whose head (slot 0) is not the tail (slot 1). -/
def chanC2 : XDmaChannel :=
  { TotalDescriptorCount := 2
    Descriptors :=
      [{ bdZero with Control := { stop := true, lastInPacket := false, rest := 0 }
                     NextPtr := 1 },
       { bdZero with Control := { stop := true, lastInPacket := false, rest := 0 }
                     NextPtr := 0 }]
    PutPtr := 0
    GetPtr := 1
    CommitPtr := some 0
    LastPtr := 1
    ActiveDescriptorCount := 2
    ActivePacketCount := 0
    Committed := false
    RegDMAS := 0
    RegDMAC := 0
    RegSWCR := 0
    RegBDA := none }

/-- C2 witness: committing a staged run of two clears the stop bit on the
run's head. -/
theorem c2_commitPuts_spec_witness :
    stopAt (XDmaChannel_CommitPuts chanC2).2 0 = false :=
  ((c2_commitPuts_spec chanC2).2 0 rfl (by decide)).2.2.2.1 (by decide) (by decide)

/-- C3: in a successful put_descriptor, the stop bit on the BD at the
pre-call LastPtr is cleared exactly when a staged run already exists
(CommitPtr is not none) and its head differs from that LastPtr; otherwise
the previous tail's stop bit is left set. -/
theorem c3_put_clears_prev_tail_iff (s : XDmaChannel) (bd : XBufDescriptor)
    (h1 : s.TotalDescriptorCount ≠ 0)
    (h2 : s.ActiveDescriptorCount ≠ s.TotalDescriptorCount)
    (h3 : (s.Descriptors.getD s.PutPtr bdZero).Flags.locked = false)
    (hlast : s.LastPtr < s.Descriptors.length)
    (hput : s.PutPtr < s.Descriptors.length)
    (hstop : stopAt s s.LastPtr = true) :
    stopAt (XDmaChannel_PutDescriptor s bd).2.1 s.LastPtr = false ↔
      s.CommitPtr ≠ none ∧ s.CommitPtr ≠ some s.LastPtr := by
  rw [put_eq_success s bd h1 h2 h3]
  show ((putDescs2 s bd).getD s.LastPtr bdZero).Control.stop = false ↔ _
  rw [putDescs2]
  split
  next hfire =>
    have hfalse :
        (((putDescs1 s bd).set s.LastPtr
            (clearStop ((putDescs1 s bd).getD s.LastPtr bdZero))).getD s.LastPtr
              bdZero).Control.stop = false := by
      rw [getD_set_self _ _ _ _ (by rw [putDescs1_length]; exact hlast)]
      rfl
    exact iff_of_true hfalse ⟨hfire.2, hfire.1⟩
  next hnfire =>
    have htrue : ((putDescs1 s bd).getD s.LastPtr bdZero).Control.stop = true := by
      rcases eq_or_ne s.LastPtr s.PutPtr with heq | hne
      · rw [heq, putDescs1_getD_putPtr s bd hput]
        rfl
      · rw [putDescs1_getD_ne s bd _ hne]
        exact hstop
    refine iff_of_false (by rw [htrue]; decide) ?_
    intro hcond
    exact hnfire ⟨hcond.2, hcond.1⟩

/-- Concrete channel for the C3 witness: a three-slot ring on which two
puts of a staged run headed at slot 0 have happened (LastPtr = 1), so the
next put is the third of the run. -/
def chanC3 : XDmaChannel :=
  { TotalDescriptorCount := 3
    Descriptors :=
      [{ bdZero with Control := { stop := true, lastInPacket := false, rest := 0 }
                     NextPtr := 1 },
       { bdZero with Control := { stop := true, lastInPacket := false, rest := 0 }
                     NextPtr := 2 },
       { bdZero with NextPtr := 0 }]
    PutPtr := 2
    GetPtr := 0
    CommitPtr := some 0
    LastPtr := 1
    ActiveDescriptorCount := 2
    ActivePacketCount := 0
    Committed := false
    RegDMAS := 0
    RegDMAC := 0
    RegSWCR := 0
    RegBDA := none }

/-- C3 witness: the third put of a staged run clears the previous tail's
stop bit, and the clearing condition holds there. -/
theorem c3_put_clears_prev_tail_iff_witness :
    stopAt (XDmaChannel_PutDescriptor chanC3 bdZero).2.1 chanC3.LastPtr = false ↔
      chanC3.CommitPtr ≠ none ∧ chanC3.CommitPtr ≠ some chanC3.LastPtr :=
  c3_put_clears_prev_tail_iff chanC3 bdZero (by decide) (by decide) (by decide)
    (by decide) (by decide) (by decide)

/-- C4: in a successful put_descriptor with CommitPtr = none beforehand,
CommitPtr becomes the pre-call LastPtr; and after every successful put the
active count has grown by one, LastPtr equals the pre-call PutPtr and
PutPtr equals the successor of the pre-call PutPtr. -/
theorem c4_put_cursor_update (s : XDmaChannel) (bd : XBufDescriptor)
    (h1 : s.TotalDescriptorCount ≠ 0)
    (h2 : s.ActiveDescriptorCount ≠ s.TotalDescriptorCount)
    (h3 : (s.Descriptors.getD s.PutPtr bdZero).Flags.locked = false) :
    (s.CommitPtr = none →
        (XDmaChannel_PutDescriptor s bd).2.1.CommitPtr = some s.LastPtr) ∧
      (XDmaChannel_PutDescriptor s bd).2.1.ActiveDescriptorCount =
        s.ActiveDescriptorCount + 1 ∧
      (XDmaChannel_PutDescriptor s bd).2.1.LastPtr = s.PutPtr ∧
      (XDmaChannel_PutDescriptor s bd).2.1.PutPtr =
        (s.Descriptors.getD s.PutPtr bdZero).NextPtr := by
  rw [put_eq_success s bd h1 h2 h3]
  refine ⟨?_, rfl, rfl, ?_⟩
  · intro hnone
    show (if s.CommitPtr = none then some s.LastPtr else s.CommitPtr) = some s.LastPtr
    rw [if_pos hnone]
  · show ((putDescs2 s bd).getD s.PutPtr bdZero).NextPtr = _
    exact putDescs2_next s bd _

/-- Concrete channel for the C4 witness: an empty two-slot ring with no
staged run; LastPtr and PutPtr sit on slot 1. -/
def chanC4 : XDmaChannel :=
  { TotalDescriptorCount := 2
    Descriptors := [{ bdZero with NextPtr := 1 }, { bdZero with NextPtr := 0 }]
    PutPtr := 1
    GetPtr := 1
    CommitPtr := none
    LastPtr := 1
    ActiveDescriptorCount := 0
    ActivePacketCount := 0
    Committed := false
    RegDMAS := 0
    RegDMAC := 0
    RegSWCR := 0
    RegBDA := none }

/-- C4 witness: the cursor updates of a successful put on a concrete
channel. -/
theorem c4_put_cursor_update_witness :
    (chanC4.CommitPtr = none →
        (XDmaChannel_PutDescriptor chanC4 bdZero).2.1.CommitPtr =
          some chanC4.LastPtr) ∧
      (XDmaChannel_PutDescriptor chanC4 bdZero).2.1.ActiveDescriptorCount =
        chanC4.ActiveDescriptorCount + 1 ∧
      (XDmaChannel_PutDescriptor chanC4 bdZero).2.1.LastPtr = chanC4.PutPtr ∧
      (XDmaChannel_PutDescriptor chanC4 bdZero).2.1.PutPtr =
        (chanC4.Descriptors.getD chanC4.PutPtr bdZero).NextPtr :=
  c4_put_cursor_update chanC4 bdZero (by decide) (by decide) (by decide)

/-- C6 (amended): a successful create_list on a region of ByteCount bytes
makes floor(ByteCount / sizeof(BD)) slots threaded in order with the last
linked back to the first, resets CommitPtr, the counters and the Committed
flag, and sets PutPtr = GetPtr = LastPtr to the last slot (index N - 1, not
the first slot); create_list returns ListExists, changing nothing, when a
list already exists. -/
theorem c6_createSgList_spec (inst : XDmaChannel) (byteCount : Nat) :
    (inst.TotalDescriptorCount ≠ 0 →
        XDmaChannel_CreateSgList inst byteCount = (XST_DMA_SG_LIST_EXISTS, inst)) ∧
      (inst.TotalDescriptorCount = 0 → sizeofXBufDescriptor ≤ byteCount →
        (XDmaChannel_CreateSgList inst byteCount).1 = XST_SUCCESS ∧
          (XDmaChannel_CreateSgList inst byteCount).2.TotalDescriptorCount =
            byteCount / sizeofXBufDescriptor ∧
          (∀ i, i < byteCount / sizeofXBufDescriptor →
            ((XDmaChannel_CreateSgList inst byteCount).2.Descriptors.getD i
                bdZero).NextPtr =
              (i + 1) % (byteCount / sizeofXBufDescriptor)) ∧
          (XDmaChannel_CreateSgList inst byteCount).2.PutPtr =
            byteCount / sizeofXBufDescriptor - 1 ∧
          (XDmaChannel_CreateSgList inst byteCount).2.GetPtr =
            byteCount / sizeofXBufDescriptor - 1 ∧
          (XDmaChannel_CreateSgList inst byteCount).2.LastPtr =
            byteCount / sizeofXBufDescriptor - 1 ∧
          (XDmaChannel_CreateSgList inst byteCount).2.CommitPtr = none ∧
          (XDmaChannel_CreateSgList inst byteCount).2.ActiveDescriptorCount = 0 ∧
          (XDmaChannel_CreateSgList inst byteCount).2.ActivePacketCount = 0 ∧
          (XDmaChannel_CreateSgList inst byteCount).2.Committed = false) := by
  constructor
  · intro h
    rw [XDmaChannel_CreateSgList, if_pos h]
  · intro h0 hbc
    have hshape := createSgList_initShape inst byteCount h0 hbc
    have htot : (XDmaChannel_CreateSgList inst byteCount).2.TotalDescriptorCount =
        byteCount / sizeofXBufDescriptor := by
      rw [createSgList_eq inst byteCount h0]
      exact sgLoopIters_eq_div byteCount
    refine ⟨?_, htot, ?_, ?_, ?_, ?_, hshape.commit_none, hshape.active_zero, ?_, ?_⟩
    · rw [createSgList_eq inst byteCount h0]
    · intro i hi
      have hnx := hshape.nexts i (by rw [htot]; exact hi)
      rw [htot] at hnx
      exact hnx
    · have h' := hshape.put_eq
      rw [htot] at h'
      exact h'
    · have h' := hshape.get_eq
      rw [htot] at h'
      exact h'
    · have h' := hshape.last_eq
      rw [htot] at h'
      exact h'
    · rw [createSgList_eq inst byteCount h0]
    · rw [createSgList_eq inst byteCount h0]

/-- C6 witness: creating on a fresh channel with an 80-byte region
succeeds with two slots threaded 0 → 1 → 0. -/
theorem c6_createSgList_spec_witness :
    (XDmaChannel_CreateSgList blankChannel 80).1 = XST_SUCCESS ∧
      (XDmaChannel_CreateSgList blankChannel 80).2.TotalDescriptorCount =
        80 / sizeofXBufDescriptor :=
  ⟨((c6_createSgList_spec blankChannel 80).2 rfl (by decide)).1,
    ((c6_createSgList_spec blankChannel 80).2 rfl (by decide)).2.1⟩

/-- C6 counterexample: after create_list on an 80-byte region the ring has
two slots and PutPtr = GetPtr = LastPtr is slot 1, the last slot, not the
first slot (index 0) the claim states. -/
theorem c6_createSgList_ptrs_not_first_slot :
    (XDmaChannel_CreateSgList blankChannel 80).2.TotalDescriptorCount = 2 ∧
      (XDmaChannel_CreateSgList blankChannel 80).2.PutPtr = 1 ∧
      (XDmaChannel_CreateSgList blankChannel 80).2.GetPtr = 1 ∧
      (XDmaChannel_CreateSgList blankChannel 80).2.LastPtr = 1 ∧
      (XDmaChannel_CreateSgList blankChannel 80).2.PutPtr ≠ 0 := by
  have h2 : sgLoopIters 80 = 2 := by
    rw [sgLoopIters_eq_div]
    decide
  rw [createSgList_eq blankChannel 80 rfl, h2]
  decide

/-- C7: the field-wise copy transfers control, source, destination, length,
status, device status, id, flags and requested length and leaves the
destination's next pointer; and no put_descriptor call ever changes the
next pointer of any ring slot. -/
theorem c7_put_preserves_next_pointers :
    (∀ src dst : XBufDescriptor,
        CopyBufferDescriptor src dst = { src with NextPtr := dst.NextPtr }) ∧
      ∀ (inst : XDmaChannel) (bd : XBufDescriptor) (i : Nat),
        ((XDmaChannel_PutDescriptor inst bd).2.1.Descriptors.getD i bdZero).NextPtr =
          (inst.Descriptors.getD i bdZero).NextPtr := by
  constructor
  · intro src dst
    rfl
  · intro inst bd i
    by_cases h1 : inst.TotalDescriptorCount = 0
    · rw [XDmaChannel_PutDescriptor, if_pos h1]
    · by_cases h2 : inst.ActiveDescriptorCount = inst.TotalDescriptorCount
      · rw [XDmaChannel_PutDescriptor, if_neg h1, if_pos h2]
      · by_cases h3 : (inst.Descriptors.getD inst.PutPtr bdZero).Flags.locked = true
        · rw [XDmaChannel_PutDescriptor, if_neg h1, if_neg h2, if_pos h3]
        · rw [put_eq_success inst bd h1 h2 (by simpa using h3)]
          show ((putDescs2 inst bd).getD i bdZero).NextPtr = _
          exact putDescs2_next inst bd i

/-- C9: put_descriptor is atomic on error: whenever it returns NoList,
ListFull or BdLocked, the channel state (all fields and all ring slots) and
the caller's source descriptor are returned unchanged. -/
theorem c9_put_error_frame (inst : XDmaChannel) (bd : XBufDescriptor)
    (h : (XDmaChannel_PutDescriptor inst bd).1 = XST_DMA_SG_NO_LIST ∨
        (XDmaChannel_PutDescriptor inst bd).1 = XST_DMA_SG_LIST_FULL ∨
        (XDmaChannel_PutDescriptor inst bd).1 = XST_DMA_SG_BD_LOCKED) :
    (XDmaChannel_PutDescriptor inst bd).2.1 = inst ∧
      (XDmaChannel_PutDescriptor inst bd).2.2 = bd := by
  by_cases h1 : inst.TotalDescriptorCount = 0
  · rw [XDmaChannel_PutDescriptor, if_pos h1]
    exact ⟨rfl, rfl⟩
  by_cases h2 : inst.ActiveDescriptorCount = inst.TotalDescriptorCount
  · rw [XDmaChannel_PutDescriptor, if_neg h1, if_pos h2]
    exact ⟨rfl, rfl⟩
  by_cases h3 : (inst.Descriptors.getD inst.PutPtr bdZero).Flags.locked = true
  · rw [XDmaChannel_PutDescriptor, if_neg h1, if_neg h2, if_pos h3]
    exact ⟨rfl, rfl⟩
  exfalso
  rw [put_eq_success inst bd h1 h2 (by simpa using h3)] at h
  rcases h with h | h | h <;> simp at h

/-- C9 witness: a put on a channel with no list errors with NoList and
changes nothing. -/
theorem c9_put_error_frame_witness :
    (XDmaChannel_PutDescriptor blankChannel bdZero).2.1 = blankChannel ∧
      (XDmaChannel_PutDescriptor blankChannel bdZero).2.2 = bdZero :=
  c9_put_error_frame blankChannel bdZero (Or.inl (by decide))

/-- C10: get_descriptor performs no ownership check: on every channel with
a non-empty list it succeeds, returns the slot at GetPtr, advances GetPtr
to its successor and decrements the active count, whatever the busy or
locked bits of that slot; and on any channel it returns only Success,
NoList or ListEmpty. -/
theorem c10_getDescriptor_no_ownership_check (inst : XDmaChannel)
    (h1 : 0 < inst.TotalDescriptorCount) (h2 : 0 < inst.ActiveDescriptorCount) :
    XDmaChannel_GetDescriptor inst =
        (XST_SUCCESS,
          { inst with
              GetPtr := (inst.Descriptors.getD inst.GetPtr bdZero).NextPtr
              ActiveDescriptorCount := inst.ActiveDescriptorCount - 1 },
          some inst.GetPtr) ∧
      ∀ s : XDmaChannel,
        (XDmaChannel_GetDescriptor s).1 = XST_SUCCESS ∨
          (XDmaChannel_GetDescriptor s).1 = XST_DMA_SG_NO_LIST ∨
          (XDmaChannel_GetDescriptor s).1 = XST_DMA_SG_LIST_EMPTY := by
  constructor
  · exact get_eq_success inst (by omega) (by omega)
  · intro s
    by_cases g1 : s.TotalDescriptorCount = 0
    · rw [XDmaChannel_GetDescriptor, if_pos g1]
      exact Or.inr (Or.inl rfl)
    by_cases g2 : s.ActiveDescriptorCount = 0
    · rw [XDmaChannel_GetDescriptor, if_neg g1, if_pos g2]
      exact Or.inr (Or.inr rfl)
    · rw [get_eq_success s g1 g2]
      exact Or.inl rfl

/-- Concrete channel for the C10 witness: the single active slot at GetPtr
is still hardware-busy and locked, yet get succeeds. -/
def chanC10 : XDmaChannel :=
  { TotalDescriptorCount := 2
    Descriptors :=
      [{ bdZero with Status := { busy := true, rest := 0 }
                     Flags := { locked := true, rest := 0 }
                     NextPtr := 1 },
       { bdZero with NextPtr := 0 }]
    PutPtr := 1
    GetPtr := 0
    CommitPtr := none
    LastPtr := 0
    ActiveDescriptorCount := 1
    ActivePacketCount := 0
    Committed := false
    RegDMAS := 0
    RegDMAC := 0
    RegSWCR := 0
    RegBDA := none }

/-- C10 witness: get succeeds on a busy and locked descriptor. -/
theorem c10_getDescriptor_no_ownership_check_witness :
    XDmaChannel_GetDescriptor chanC10 =
        (XST_SUCCESS,
          { chanC10 with
              GetPtr := (chanC10.Descriptors.getD chanC10.GetPtr bdZero).NextPtr
              ActiveDescriptorCount := chanC10.ActiveDescriptorCount - 1 },
          some chanC10.GetPtr) ∧
      ∀ s : XDmaChannel,
        (XDmaChannel_GetDescriptor s).1 = XST_SUCCESS ∨
          (XDmaChannel_GetDescriptor s).1 = XST_DMA_SG_NO_LIST ∨
          (XDmaChannel_GetDescriptor s).1 = XST_DMA_SG_LIST_EMPTY :=
  c10_getDescriptor_no_ownership_check chanC10 (by decide) (by decide)

/-- C5: sg_start returns NoList on a missing list, else ListEmpty on an
empty ring, else IsStarted when the SG-busy status bit reads set; with the
engine idle it seeds BDA with the physical address of GetPtr and succeeds
when BDA reads null, and otherwise follows next(L): NoData when that
descriptor's busy bit is clear, BdNotCommitted when it equals CommitPtr,
else Success after the enable sequence. -/
theorem c5_sgStart_spec (inst : XDmaChannel) :
    (inst.TotalDescriptorCount = 0 →
        XDmaChannel_SgStart inst = (XST_DMA_SG_NO_LIST, inst)) ∧
      (inst.TotalDescriptorCount ≠ 0 → inst.ActiveDescriptorCount = 0 →
        XDmaChannel_SgStart inst = (XST_DMA_SG_LIST_EMPTY, inst)) ∧
      (inst.TotalDescriptorCount ≠ 0 → inst.ActiveDescriptorCount ≠ 0 →
        inst.RegDMAS &&& XDC_DMASR_SG_BUSY_MASK ≠ 0 →
        XDmaChannel_SgStart inst = (XST_DMA_SG_IS_STARTED, inst)) ∧
      (inst.TotalDescriptorCount ≠ 0 → inst.ActiveDescriptorCount ≠ 0 →
        inst.RegDMAS &&& XDC_DMASR_SG_BUSY_MASK = 0 → inst.RegBDA = none →
        XDmaChannel_SgStart inst =
          (XST_SUCCESS,
            { inst with
                RegBDA := some inst.GetPtr
                RegSWCR := inst.RegSWCR ||| XDC_SWCR_SG_ENABLE_MASK
                RegDMAC := inst.RegDMAC &&&
                  (u32AllOnes ^^^ XDC_DMACR_SG_DISABLE_MASK) })) ∧
      ∀ l, inst.TotalDescriptorCount ≠ 0 → inst.ActiveDescriptorCount ≠ 0 →
        inst.RegDMAS &&& XDC_DMASR_SG_BUSY_MASK = 0 → inst.RegBDA = some l →
        ((inst.Descriptors.getD ((inst.Descriptors.getD l bdZero).NextPtr)
              bdZero).Status.busy = false →
          XDmaChannel_SgStart inst = (XST_DMA_SG_NO_DATA, inst)) ∧
        ((inst.Descriptors.getD ((inst.Descriptors.getD l bdZero).NextPtr)
              bdZero).Status.busy = true →
          some ((inst.Descriptors.getD l bdZero).NextPtr) = inst.CommitPtr →
          XDmaChannel_SgStart inst = (XST_DMA_SG_BD_NOT_COMMITTED, inst)) ∧
        ((inst.Descriptors.getD ((inst.Descriptors.getD l bdZero).NextPtr)
              bdZero).Status.busy = true →
          some ((inst.Descriptors.getD l bdZero).NextPtr) ≠ inst.CommitPtr →
          XDmaChannel_SgStart inst =
            (XST_SUCCESS,
              { inst with
                  RegSWCR := inst.RegSWCR ||| XDC_SWCR_SG_ENABLE_MASK
                  RegDMAC := inst.RegDMAC &&&
                    (u32AllOnes ^^^ XDC_DMACR_SG_DISABLE_MASK) })) := by
  refine ⟨?_, ?_, ?_, ?_, ?_⟩
  · intro h1
    rw [XDmaChannel_SgStart, if_pos h1]
  · intro h1 h2
    rw [XDmaChannel_SgStart, if_neg h1,
      if_pos (by simp [XDmaChannel_IsSgListEmpty, h2])]
  · intro h1 h2 h3
    rw [XDmaChannel_SgStart, if_neg h1,
      if_neg (by simp [XDmaChannel_IsSgListEmpty, h2]), if_pos h3]
  · intro h1 h2 h3 hbda
    rw [XDmaChannel_SgStart, if_neg h1,
      if_neg (by simp [XDmaChannel_IsSgListEmpty, h2]), if_neg (fun hn => hn h3),
      hbda]
    rfl
  · intro l h1 h2 h3 hbda
    have heq : XDmaChannel_SgStart inst = sgStartFromBda inst l := by
      rw [XDmaChannel_SgStart, if_neg h1,
        if_neg (by simp [XDmaChannel_IsSgListEmpty, h2]), if_neg (fun hn => hn h3),
        hbda]
    refine ⟨?_, ?_, ?_⟩
    · intro hbusy
      rw [heq]
      simp only [sgStartFromBda]
      rw [if_pos hbusy]
    · intro hbusy hcp
      rw [heq]
      simp only [sgStartFromBda]
      rw [if_neg (by rw [hbusy]; decide), if_pos hcp]
    · intro hbusy hcp
      rw [heq]
      simp only [sgStartFromBda]
      rw [if_neg (by rw [hbusy]; decide), if_neg hcp]
      rfl

/-- Concrete channel for the C5 witness: the descriptor the engine would
run next (slot 1, still busy) is the head of an uncommitted staged run. -/
def chanC5 : XDmaChannel :=
  { TotalDescriptorCount := 2
    Descriptors :=
      [{ bdZero with NextPtr := 1 },
       { bdZero with Status := { busy := true, rest := 0 }
                     NextPtr := 0 }]
    PutPtr := 0
    GetPtr := 1
    CommitPtr := some 1
    LastPtr := 1
    ActiveDescriptorCount := 1
    ActivePacketCount := 0
    Committed := false
    RegDMAS := 0
    RegDMAC := 0
    RegSWCR := 0
    RegBDA := some 0 }

/-- C5 witness: sg_start refuses with BdNotCommitted when the next
descriptor is the staged run's head. -/
theorem c5_sgStart_spec_witness :
    XDmaChannel_SgStart chanC5 = (XST_DMA_SG_BD_NOT_COMMITTED, chanC5) :=
  (((c5_sgStart_spec chanC5).2.2.2.2 0 (by decide) (by decide) (by decide)
      rfl).2.1) (by decide) (by decide)

/-- The do-while poll exits with the halted result as soon as some supplied
DMAS read has the SG busy bit clear. -/
theorem sgStopWait_halted (s : XDmaChannel) (rs : List Nat)
    (h : ∃ r ∈ rs, r &&& XDC_DMASR_SG_BUSY_MASK = 0) :
    sgStopWait s rs = SgStopResult.halted s s.RegBDA := by
  induction rs with
  | nil => simp at h
  | cons r rs ih =>
    rw [sgStopWait]
    split
    next hb =>
      apply ih
      rcases h with ⟨r', hr', hr0⟩
      rcases List.mem_cons.mp hr' with rfl | hmem
      · exact absurd hr0 hb
      · exact ⟨r', hmem, hr0⟩
    next hb => rfl

/-- The do-while poll keeps spinning while every supplied DMAS read has the
SG busy bit set. -/
theorem sgStopWait_waiting (s : XDmaChannel) (rs : List Nat)
    (h : ∀ r ∈ rs, r &&& XDC_DMASR_SG_BUSY_MASK ≠ 0) :
    sgStopWait s rs = SgStopResult.waiting := by
  induction rs with
  | nil => rfl
  | cons r rs ih =>
    rw [sgStopWait]
    split
    next => exact ih fun r' hr' => h r' (List.mem_cons_of_mem r hr')
    next hb => exact absurd (h r (List.mem_cons_self r rs)) hb

/-- C8: sg_stop returns IsStopped writing nothing exactly when the SG
enable bit of the software control register is clear; otherwise it clears
only that bit (all other SWCR bits unchanged), waits until a DMAS read
shows the SG busy bit clear (spinning forever otherwise), returns the
virtual translation of the BDA register, and leaves every ring field of
the channel unchanged. -/
theorem c8_sgStop_spec (inst : XDmaChannel) (dmasReads : List Nat)
    (h32 : inst.RegSWCR < 2 ^ 32) :
    (inst.RegSWCR &&& XDC_SWCR_SG_ENABLE_MASK = 0 →
        XDmaChannel_SgStop inst dmasReads = SgStopResult.stopped inst) ∧
      (inst.RegSWCR &&& XDC_SWCR_SG_ENABLE_MASK ≠ 0 →
        ((∃ r ∈ dmasReads, r &&& XDC_DMASR_SG_BUSY_MASK = 0) →
            XDmaChannel_SgStop inst dmasReads =
              SgStopResult.halted
                { inst with
                    RegSWCR :=
                      inst.RegSWCR &&& (u32AllOnes ^^^ XDC_SWCR_SG_ENABLE_MASK) }
                inst.RegBDA) ∧
          ((∀ r ∈ dmasReads, r &&& XDC_DMASR_SG_BUSY_MASK ≠ 0) →
            XDmaChannel_SgStop inst dmasReads = SgStopResult.waiting)) ∧
      ∀ i, i ≠ 31 →
        (inst.RegSWCR &&& (u32AllOnes ^^^ XDC_SWCR_SG_ENABLE_MASK)).testBit i =
          inst.RegSWCR.testBit i := by
  refine ⟨?_, ?_, ?_⟩
  · intro h0
    rw [XDmaChannel_SgStop, if_pos h0]
  · intro hne
    constructor
    · intro hex
      rw [XDmaChannel_SgStop, if_neg hne]
      exact sgStopWait_halted _ _ hex
    · intro hall
      rw [XDmaChannel_SgStop, if_neg hne]
      exact sgStopWait_waiting _ _ hall
  · intro i hi
    have hmask : u32AllOnes ^^^ XDC_SWCR_SG_ENABLE_MASK = 2 ^ 31 - 1 := by decide
    rw [hmask, Nat.testBit_land, Nat.testBit_two_pow_sub_one]
    rcases Nat.lt_or_ge i 31 with hlt | hge
    · simp [hlt]
    · have h32i : 32 ≤ i := by omega
      have hx : inst.RegSWCR.testBit i = false :=
        Nat.testBit_lt_two_pow
          (lt_of_lt_of_le h32 (Nat.pow_le_pow_right (by norm_num) h32i))
      simp [hx]

/-- Concrete channel for the C8 witness: SG is enabled (and another SWCR
bit is set), the engine reports one busy poll before going idle. -/
def chanC8 : XDmaChannel :=
  { TotalDescriptorCount := 2
    Descriptors := [{ bdZero with NextPtr := 1 }, { bdZero with NextPtr := 0 }]
    PutPtr := 1
    GetPtr := 1
    CommitPtr := none
    LastPtr := 1
    ActiveDescriptorCount := 1
    ActivePacketCount := 0
    Committed := true
    RegDMAS := 0x08000000
    RegDMAC := 0
    RegSWCR := 0x80000001
    RegBDA := some 0 }

/-- C8 witness: a stop on an enabled channel clears the SG enable bit,
outlasts one busy poll, and hands back the BDA translation with the ring
untouched. -/
theorem c8_sgStop_spec_witness :
    XDmaChannel_SgStop chanC8 [0x08000000, 0] =
      SgStopResult.halted
        { chanC8 with
            RegSWCR := chanC8.RegSWCR &&& (u32AllOnes ^^^ XDC_SWCR_SG_ENABLE_MASK) }
        chanC8.RegBDA :=
  ((c8_sgStop_spec chanC8 [0x08000000, 0] (by decide)).2.1 (by decide)).1
    ⟨0, by decide, by decide⟩
